import Mathlib

/-!
Verification of the aws-epubify conversion pipeline
(`src/app/api/convert/route.ts`) against its specification.

The development shallowly embeds the pipeline: pure string manipulation is
translated directly; the external collaborators (fetch, HTML parsing, the
Readability library, the WHATWG URL resolver) are modelled as explicit
inputs, and the stateful orchestrator is modelled as a function from an
environment describing those collaborators to the trace of task-record
updates it performs together with the final task record.

JavaScript numbers are modelled as exact rationals; JavaScript strings as
Lean strings (code points instead of UTF-16 units, which agree on all the
inputs considered here).
-/

namespace AwsEpubify

/-! ## String helpers (substring / prefix / suffix tests over char lists) -/

/-- Does the list start with the given pattern? -/
def prefixOf : List Char → List Char → Bool
  | [], _ => true
  | _ :: _, [] => false
  | a :: as, b :: bs => a == b && prefixOf as bs

/-- Does the pattern occur contiguously anywhere in the list?
Models the JavaScript `String.prototype.includes`. -/
def containsSub (pat : List Char) : List Char → Bool
  | [] => prefixOf pat []
  | b :: bs => prefixOf pat (b :: bs) || containsSub pat bs

/-- `s.includes(pat)` on strings. -/
def strContains (s pat : String) : Bool :=
  containsSub pat.toList s.toList

/-- Does the list end with the given pattern? -/
def suffixOf (pat l : List Char) : Bool :=
  prefixOf pat.reverse l.reverse

/-- `s.endsWith(pat)` on strings. -/
def strEndsWith (s pat : String) : Bool :=
  suffixOf pat.toList s.toList

/-- ASCII lower-casing of a string, as WHATWG host parsing performs. -/
def lowerStr (s : String) : String :=
  String.mk (s.toList.map Char.toLower)

/-- Leading and trailing whitespace removal: the JavaScript
`String.prototype.trim`. -/
def strTrim (s : String) : String :=
  String.mk (((s.toList.dropWhile Char.isWhitespace).reverse.dropWhile
    Char.isWhitespace).reverse)

/-! ## URL model

A parsed URL record holding the components the validity predicate reads,
following WHATWG conventions: `hostname` is lower-cased; `pathname` starts
with a slash and defaults to a bare slash; `search` is either empty or
starts with a question mark; `hash` is either empty or starts with a hash
sign (an empty fragment yields an empty `hash`). -/

structure URLRec where
  hostname : String
  pathname : String
  search : String
  hash : String
deriving DecidableEq, Repr

/-- Split a list at the first occurrence of `c`: the part before it, and
(if `c` occurs) the part after it. -/
def splitFirst (c : Char) : List Char → List Char × Option (List Char)
  | [] => ([], none)
  | x :: xs =>
    if x == c then ([], some xs)
    else
      let r := splitFirst c xs
      (x :: r.1, r.2)

/-- Models `new URL(s)` for absolute http/https URLs without credentials or
an explicit port: the fragment is split off first, then the query, then the
host; parsing fails (the constructor throws) on other schemes or an empty
host. This covers the URL shapes the predicate claims are stated over. -/
def parseUrl (s : String) : Option URLRec :=
  let cs := s.toList
  let rest? : Option (List Char) :=
    if prefixOf "https://".toList cs then some (cs.drop 8)
    else if prefixOf "http://".toList cs then some (cs.drop 7)
    else none
  match rest? with
  | none => none
  | some rest =>
    let hashSplit := splitFirst '#' rest
    let querySplit := splitFirst '?' hashSplit.1
    let hostSplit := splitFirst '/' querySplit.1
    if hostSplit.1.isEmpty then none
    else
      some {
        hostname := String.mk (hostSplit.1.map Char.toLower)
        pathname :=
          match hostSplit.2 with
          | none => "/"
          | some p => String.mk ('/' :: p)
        search :=
          match querySplit.2 with
          | none => ""
          | some [] => ""
          | some q => String.mk ('?' :: q)
        hash :=
          match hashSplit.2 with
          | none => ""
          | some [] => ""
          | some f => String.mk ('#' :: f) }

/-! ## Link validity predicate (`isValidAwsDocumentationLink`) -/

/-- The extension blacklist of the regex
`/\.(pdf|zip|tar\.gz|jpg|jpeg|png|gif|svg|css|js)$/i`. -/
def badExtensions : List String :=
  [".pdf", ".zip", ".tar.gz", ".jpg", ".jpeg", ".png", ".gif", ".svg", ".css", ".js"]

/-- Case-insensitive test that the pathname ends in a blacklisted extension. -/
def hasBadExtension (pathname : String) : Bool :=
  badExtensions.any (fun ext => strEndsWith (lowerStr pathname) ext)

/-- The pathname obtained by re-parsing the same URL string, as the source
writes `new URL(url).pathname` inside the fragment check. -/
def reParsedPathname (url : String) : String :=
  match parseUrl url with
  | some u => u.pathname
  | none => ""

/-- Translation of `isValidAwsDocumentationLink` from
`src/app/api/convert/route.ts` (lines 267-297). -/
def isValidAwsDocumentationLink (url : String) : Bool :=
  match parseUrl url with
  | none => false
  | some parsedUrl =>
    if !(strContains parsedUrl.hostname "aws.amazon.com") &&
       !(strContains parsedUrl.hostname "docs.aws.amazon.com") &&
       !(strContains parsedUrl.hostname "wa.aws.amazon.com") then false
    else if hasBadExtension parsedUrl.pathname then false
    else if parsedUrl.hash != "" && parsedUrl.pathname == reParsedPathname url &&
            parsedUrl.search == "" then false
    else if strContains parsedUrl.pathname "/api/" &&
            !(strContains parsedUrl.pathname "/latest/") then false
    else true

/-! ## Link extractor (`extractAwsDocumentationLinks`)

The fetched and parsed HTML page is abstracted as the anchor data the
extractor reads: the anchors of the first matching table-of-contents
element (when any selector matched), and the anchors of the whole page for
the fallback scan. Each anchor is `none` when its href attribute is
missing or when resolving it against the base URL throws, and `some u`
with the resolved absolute URL otherwise (URL resolution itself is the
external WHATWG resolver). -/

structure LinkPage where
  tocAnchors : Option (List (Option String))
  allAnchors : List (Option String)

/-- Translation of `extractLinksFromElement` (lines 246-265): keep the
anchors that resolve and pass the validity predicate, in order. -/
def extractLinksFromElement : List (Option String) → List String
  | [] => []
  | none :: rest => extractLinksFromElement rest
  | some u :: rest =>
    if isValidAwsDocumentationLink u then u :: extractLinksFromElement rest
    else extractLinksFromElement rest

/-- State of the `links` array paired with the `seen` set (modelled as the
list of its insertion-ordered elements). -/
def pushTocLink (st : List String × List String) (link : String) :
    List String × List String :=
  if !st.2.contains link && isValidAwsDocumentationLink link then
    (st.1 ++ [link], st.2 ++ [link])
  else st

/-- One step of the fallback scan over every anchor of the page
(lines 224-239). -/
def pushFallbackAnchor (st : List String × List String) :
    Option String → List String × List String
  | none => st
  | some absoluteUrl =>
    if isValidAwsDocumentationLink absoluteUrl && !st.2.contains absoluteUrl then
      (st.1 ++ [absoluteUrl], st.2 ++ [absoluteUrl])
    else st

/-- Lines 177-184: the empty `links`/`seen` state, then the seed URL added
behind the (vacuous) `seen` check. -/
def seedState (url : String) : List String × List String :=
  let st0 : List String × List String := ([], [])
  if !st0.2.contains url then (st0.1 ++ [url], st0.2 ++ [url]) else st0

/-- Lines 205-218: when some TOC selector matched, fold its extracted links
into the state; otherwise the state is unchanged. -/
def tocState (url : String) (page : LinkPage) : List String × List String :=
  match page.tocAnchors with
  | some anchors => (extractLinksFromElement anchors).foldl pushTocLink (seedState url)
  | none => seedState url

/-- Lines 220-240: the fallback scan over every anchor of the page, run
only when the link list still holds just the seed. -/
def fallbackState (url : String) (page : LinkPage) : List String × List String :=
  if (tocState url page).1.length = 1 then
    page.allAnchors.foldl pushFallbackAnchor (tocState url page)
  else tocState url page

/-- Translation of `extractAwsDocumentationLinks` (lines 159-244): seed URL
first, then the links of the first matching TOC element, then — only when
the list still holds just the seed — the fallback scan over all anchors,
truncated to 100 entries (line 243). -/
def extractAwsDocumentationLinks (url : String) (page : LinkPage) : List String :=
  (fallbackState url page).1.take 100

/-! ## XML escaping (`escapeXml`) and its inverse -/

/-- The per-character replacement of the switch in `escapeXml`
(lines 533-544). -/
def escapeXmlChar (c : Char) : List Char :=
  if c = '<' then ['&', 'l', 't', ';']
  else if c = '>' then ['&', 'g', 't', ';']
  else if c = '&' then ['&', 'a', 'm', 'p', ';']
  else if c = '\x27' then ['&', 'a', 'p', 'o', 's', ';']
  else if c = '"' then ['&', 'q', 'u', 'o', 't', ';']
  else [c]

/-- `unsafe.replace(/[<>&'"]/g, ...)` replaces every occurrence of the five
metacharacters independently, i.e. maps `escapeXmlChar` over the string. -/
def escapeXmlList : List Char → List Char
  | [] => []
  | c :: rest => escapeXmlChar c ++ escapeXmlList rest

/-- Translation of `escapeXml` (lines 533-544). -/
def escapeXml (s : String) : String :=
  String.mk (escapeXmlList s.toList)

/-- XML entity decoding for the five predefined entities: the reading an
XML parser applies to the text content of the generated documents. Used to
state that escaped text round-trips to the original. -/
def xmlUnescapeList (l : List Char) : List Char :=
  match l with
  | [] => []
  | c :: rest =>
    if c = '&' then
      if prefixOf "lt;".toList rest then '<' :: xmlUnescapeList (rest.drop 3)
      else if prefixOf "gt;".toList rest then '>' :: xmlUnescapeList (rest.drop 3)
      else if prefixOf "amp;".toList rest then '&' :: xmlUnescapeList (rest.drop 4)
      else if prefixOf "apos;".toList rest then '\x27' :: xmlUnescapeList (rest.drop 5)
      else if prefixOf "quot;".toList rest then '"' :: xmlUnescapeList (rest.drop 5)
      else c :: xmlUnescapeList rest
    else c :: xmlUnescapeList rest
termination_by l.length
decreasing_by
  all_goals simp [List.length_drop]
  all_goals omega

/-- Entity decoding on strings. -/
def xmlUnescape (s : String) : String :=
  String.mk (xmlUnescapeList s.toList)

/-! ## EPUB packager (`createEpub`)

The JSZip archive is modelled as the list of (path, content) entries in
insertion order; `Date.now()` and the ISO date are passed in as the `now`
and `today` parameters since they are the only non-deterministic inputs. -/

/-- The extracted article record (interface `PageContent`, lines 15-21). -/
structure PageContent where
  title : String
  content : String
  url : String
  cleanedContent : String
  excerpt : String
deriving DecidableEq, Repr

/-- `META-INF/container.xml` (lines 366-371). -/
def containerXml : String :=
  "<?xml version=\"1.0\" encoding=\"UTF-8\"?>\n<container version=\"1.0\" xmlns=\"urn:oasis:names:tc:opendocument:xmlns:container\">\n    <rootfiles>\n        <rootfile full-path=\"OEBPS/content.opf\" media-type=\"application/oebps-package+xml\"/>\n    </rootfiles>\n</container>"

/-- `OEBPS/styles.css` (lines 375-465). -/
def cssContent : String :=
  "\nbody \x7b\n    font-family: Georgia, serif;\n    font-size: 16px;\n    line-height: 1.6;\n    margin: 0;\n    padding: 20px;\n    color: #333;\n\x7d\n\nh1, h2, h3, h4, h5, h6 \x7b\n    font-family: Arial, sans-serif;\n    color: #2c3e50;\n    margin-top: 30px;\n    margin-bottom: 15px;\n\x7d\n\nh1 \x7b\n    font-size: 2.2em;\n    border-bottom: 2px solid #3498db;\n    padding-bottom: 10px;\n\x7d\n\nh2 \x7b\n    font-size: 1.8em;\n    border-bottom: 1px solid #bdc3c7;\n    padding-bottom: 5px;\n\x7d\n\nh3 \x7b\n    font-size: 1.4em;\n\x7d\n\np \x7b\n    margin-bottom: 15px;\n\x7d\n\ncode \x7b\n    background-color: #f8f9fa;\n    padding: 2px 4px;\n    border-radius: 3px;\n    font-family: \x27Courier New\x27, monospace;\n\x7d\n\npre \x7b\n    background-color: #f8f9fa;\n    padding: 15px;\n    border-radius: 5px;\n    overflow-x: auto;\n    border-left: 4px solid #3498db;\n\x7d\n\nblockquote \x7b\n    border-left: 4px solid #3498db;\n    padding-left: 20px;\n    margin: 20px 0;\n    font-style: italic;\n\x7d\n\ntable \x7b\n    width: 100%;\n    border-collapse: collapse;\n    margin: 20px 0;\n\x7d\n\nth, td \x7b\n    border: 1px solid #ddd;\n    padding: 12px;\n    text-align: left;\n\x7d\n\nth \x7b\n    background-color: #f2f2f2;\n    font-weight: bold;\n\x7d\n\nul, ol \x7b\n    padding-left: 25px;\n\x7d\n\nli \x7b\n    margin-bottom: 5px;\n\x7d\n\n.highlight \x7b\n    background-color: #fff3cd;\n    padding: 10px;\n    border-radius: 5px;\n    border-left: 4px solid #ffc107;\n\x7d\n"

/-- The manifest `<item>` line generated for chapter `i` (line 482). -/
def manifestItems (chapters : List PageContent) : List String :=
  chapters.enum.map (fun p =>
    "<item id=\"chapter" ++ toString p.1 ++ "\" href=\"chapter" ++ toString p.1 ++
      ".xhtml\" media-type=\"application/xhtml+xml\"/>")

/-- The spine `<itemref>` line generated for chapter `i` (line 486). -/
def spineItemrefs (chapters : List PageContent) : List String :=
  chapters.enum.map (fun p => "<itemref idref=\"chapter" ++ toString p.1 ++ "\"/>")

/-- `OEBPS/content.opf` (lines 469-488). -/
def contentOpf (now : Nat) (today title : String) (chapters : List PageContent) : String :=
  "<?xml version=\"1.0\" encoding=\"UTF-8\"?>\n<package xmlns=\"http://www.idpf.org/2007/opf\" version=\"3.0\" unique-identifier=\"uid\">\n    <metadata xmlns:dc=\"http://purl.org/dc/elements/1.1/\">\n        <dc:identifier id=\"uid\">aws-epubify-" ++
  toString now ++
  "</dc:identifier>\n        <dc:title>" ++
  escapeXml title ++
  "</dc:title>\n        <dc:creator>AWS Epubify</dc:creator>\n        <dc:language>en</dc:language>\n        <dc:date>" ++
  today ++
  "</dc:date>\n        <dc:description>AWS Documentation converted to EPUB format using AWS Epubify</dc:description>\n    </metadata>\n    <manifest>\n        <item id=\"toc\" href=\"toc.xhtml\" media-type=\"application/xhtml+xml\" properties=\"nav\"/>\n        <item id=\"css\" href=\"styles.css\" media-type=\"text/css\"/>\n        " ++
  String.intercalate "\n        " (manifestItems chapters) ++
  "\n    </manifest>\n    <spine>\n        " ++
  "<itemref idref=\"toc\"/>\n        " ++
  String.intercalate "\n        " (spineItemrefs chapters) ++
  "\n    </spine>\n</package>"

/-- The navigation `<li>` entry generated for chapter `i` (line 502). -/
def navItems (chapters : List PageContent) : List String :=
  chapters.enum.map (fun p =>
    "<li><a href=\"chapter" ++ toString p.1 ++ ".xhtml\">" ++ escapeXml p.2.title ++
      "</a></li>")

/-- `OEBPS/toc.xhtml` (lines 492-506). -/
def tocContent (chapters : List PageContent) : String :=
  "<?xml version=\"1.0\" encoding=\"UTF-8\"?>\n<html xmlns=\"http://www.w3.org/1999/xhtml\" xmlns:epub=\"http://www.idpf.org/2007/ops\">\n<head>\n    <title>Table of Contents</title>\n    <link rel=\"stylesheet\" type=\"text/css\" href=\"styles.css\"/>\n</head>\n<body>\n    <nav epub:type=\"toc\">\n        <h1>Table of Contents</h1>\n        <ol>\n            " ++
  String.intercalate "\n            " (navItems chapters) ++
  "\n        </ol>\n    </nav>\n</body>\n</html>"

/-- The chapter document `OEBPS/chapter{i}.xhtml` (lines 511-524): escaped
title in head and heading, the cleaned article markup verbatim, and the
attribution block in which the source URL is interpolated directly. -/
def chapterXhtml (chapter : PageContent) : String :=
  "<?xml version=\"1.0\" encoding=\"UTF-8\"?>\n<html xmlns=\"http://www.w3.org/1999/xhtml\">\n<head>\n    <title>" ++
  escapeXml chapter.title ++
  "</title>\n    <link rel=\"stylesheet\" type=\"text/css\" href=\"styles.css\"/>\n</head>\n<body>\n    <h1>" ++
  escapeXml chapter.title ++
  "</h1>\n    " ++
  chapter.cleanedContent ++
  "\n    <div style=\"margin-top: 40px; padding: 10px; background-color: #f8f9fa; border-radius: 5px; font-size: 0.9em; color: #666;\">\n        <p><strong>Source:</strong> <a href=\"" ++
  chapter.url ++
  "\">" ++
  chapter.url ++
  "</a></p>\n    </div>\n</body>\n</html>"

/-- Translation of `createEpub` (lines 359-531): the archive entries in the
order the source inserts them. -/
def createEpub (now : Nat) (today title : String) (chapters : List PageContent) :
    List (String × String) :=
  [("mimetype", "application/epub+zip"),
   ("META-INF/container.xml", containerXml),
   ("OEBPS/styles.css", cssContent),
   ("OEBPS/content.opf", contentOpf now today title chapters),
   ("OEBPS/toc.xhtml", tocContent chapters)] ++
  chapters.enum.map (fun p => ("OEBPS/chapter" ++ toString p.1 ++ ".xhtml", chapterXhtml p.2))

/-! ## Content extractor (`processPageWithReadability`)

The external collaborators of one page extraction (fetch, JSDOM, the
Readability parser) are abstracted as a `PageEnv` describing their
observable results on this page. -/

/-- The result of `new Readability(document).parse()`: its fields may be
null, and JavaScript additionally treats an empty string as falsy. -/
structure ReadabilityArticle where
  title : Option String
  content : Option String
  excerpt : Option String
deriving DecidableEq, Repr

/-- Observable behaviour of the external collaborators for one page:
whether fetch (or anything else inside the try) throws, the response
status, the content type, the raw html, the Readability result, and the
text of the document title / first h1 used by the title fallback chain. -/
structure PageEnv where
  fetchThrows : Bool
  responseOk : Bool
  contentType : String
  html : String
  article : Option ReadabilityArticle
  docTitle : Option String
  docH1 : Option String
deriving DecidableEq, Repr

/-- JavaScript `a || b` for a possibly-null string `a`: null, undefined and
the empty string all fall through to `b`. -/
def jsOrElse (a : Option String) (b : String) : String :=
  match a with
  | some s => if s = "" then b else s
  | none => b

/-- Translation of `processPageWithReadability` (lines 299-357): any throw
inside the try (fetch failure, non-ok response) is caught and yields null;
an XML (non-HTML) content type yields null; a missing Readability article
or falsy content yields null; the title falls back through
article title, trimmed document title, trimmed first heading, then the
literal `Untitled Page`; trimmed content shorter than 100 yields null. -/
def processPageWithReadability (url : String) (env : PageEnv) : Option PageContent :=
  if env.fetchThrows then none
  else if !env.responseOk then none
  else if strContains env.contentType "xml" && !(strContains env.contentType "html") then none
  else
    match env.article with
    | none => none
    | some article =>
      match article.content with
      | none => none
      | some content =>
        if content = "" then none
        else
          let title := jsOrElse article.title
            (jsOrElse (env.docTitle.map strTrim)
              (jsOrElse (env.docH1.map strTrim) "Untitled Page"))
          let cleanedContent := strTrim content
          if cleanedContent = "" ∨ cleanedContent.length < 100 then none
          else some {
            title := title,
            content := env.html,
            url := url,
            cleanedContent := cleanedContent,
            excerpt := jsOrElse article.excerpt "" }

/-! ## Conversion orchestrator (`convertToEpub`)

One run of the background unit is modelled as a function from the
environment (the outcomes of URL validation, link extraction, and each
page extraction, plus the generation timestamp) to the ordered list of
`updateStatus` writes it performs and the final task record. -/

/-- One `updateStatus` write: status, progress and message. -/
structure Update where
  status : String
  progress : ℚ
  message : String
deriving DecidableEq, Repr

/-- The job record of the task registry (fields of `TaskInfo` the
orchestrator writes; timestamps are not modelled). -/
structure TaskState where
  status : String
  progress : ℚ
  message : String
  download_url : Option String
  epubBuffer : Option (List (String × String))
deriving DecidableEq, Repr

/-- Outcome of one page extraction as seen by the loop of the
orchestrator: a thrown error, a null result, or an extracted article. -/
inductive PageOutcome where
  | throws (msg : String)
  | nullResult
  | ok (a : PageContent)
deriving DecidableEq, Repr

/-- Environment of one orchestrator run: `urlCheck` is `some msg` when URL
validation throws with message `msg`; `linkResult` is the outcome of link
extraction (error message or link list); `pageOutcome i` is the outcome of
extracting page `i`; `now`/`today` are the generation timestamps read by
`createEpub`. -/
structure ConvEnv where
  urlCheck : Option String
  linkResult : Except String (List String)
  pageOutcome : Nat → PageOutcome
  now : Nat
  today : String

/-- The task record as `POST` creates it before the background unit starts
(lines 50-61). -/
def initialTask : TaskState :=
  { status := "pending", progress := 0, message := "Conversion queued",
    download_url := none, epubBuffer := none }

/-- `updateStatus` (lines 89-98): overwrite status, progress and message of
the job record (which exists for the whole run, having been created by
`POST` before the background unit was started). -/
def updateStatus (st : TaskState) (status : String) (progress : ℚ)
    (message : String) : TaskState :=
  { st with status := status, progress := progress, message := message }

/-- The progress update written at iteration `i` of the page loop
(line 123): `20 + (i * 60 / links.length)`. -/
def loopUpdate (n i : Nat) : Update :=
  ⟨"processing", 20 + ((i : ℚ) * 60) / (n : ℚ),
    "Processing page " ++ toString (i + 1) ++ "/" ++ toString n ++ "..."⟩

/-- The page loop (lines 121-134) over the remaining index list: each
iteration records its progress update, then appends the extracted chapter
exactly when the extractor neither throws nor returns null. -/
def pageLoop (env : ConvEnv) (n : Nat) : List Nat → List Update × List PageContent
  | [] => ([], [])
  | i :: is =>
    let rest := pageLoop env n is
    (loopUpdate n i :: rest.1,
      match env.pageOutcome i with
      | .ok a => a :: rest.2
      | _ => rest.2)

/-- The terminal write of the top-level catch handler (line 155):
status `failed`, progress `0`, message embedding the error text. -/
def failUpdate (e : String) : Update :=
  ⟨"failed", 0, "Conversion failed: " ++ e⟩

/-- Translation of `convertToEpub` (lines 88-157): the ordered list of
`updateStatus` writes of one run and the final task record. Failure points
are URL validation, link extraction, and an empty link list; a page-loop
failure is caught inside the loop and only skips that page. -/
def convertToEpubRun (env : ConvEnv) (taskId url : String) (title : Option String)
    (st0 : TaskState) : List Update × TaskState :=
  let u0 : Update := ⟨"processing", 0, "Starting conversion..."⟩
  let st1 := updateStatus st0 u0.status u0.progress u0.message
  match env.urlCheck with
  | some e =>
    ([u0, failUpdate e],
      updateStatus st1 (failUpdate e).status (failUpdate e).progress (failUpdate e).message)
  | none =>
    let u10 : Update := ⟨"processing", 10, "Analyzing documentation structure..."⟩
    let st2 := updateStatus st1 u10.status u10.progress u10.message
    match env.linkResult with
    | .error e =>
      ([u0, u10, failUpdate e],
        updateStatus st2 (failUpdate e).status (failUpdate e).progress (failUpdate e).message)
    | .ok links =>
      if links.length = 0 then
        ([u0, u10, failUpdate "No documentation links found"],
          updateStatus st2 (failUpdate "No documentation links found").status
            (failUpdate "No documentation links found").progress
            (failUpdate "No documentation links found").message)
      else
        let n := links.length
        let u20 : Update := ⟨"processing", 20, "Found " ++ toString n ++ " pages to convert..."⟩
        let st3 := updateStatus st2 u20.status u20.progress u20.message
        let lp := pageLoop env n (List.range n)
        let st4 := lp.1.foldl (fun s u => updateStatus s u.status u.progress u.message) st3
        let u80 : Update := ⟨"processing", 80, "Creating EPUB file..."⟩
        let st5 := updateStatus st4 u80.status u80.progress u80.message
        let epub := createEpub env.now env.today (jsOrElse title "AWS Documentation") lp.2
        let u90 : Update := ⟨"processing", 90, "Finalizing..."⟩
        let st6 := updateStatus st5 u90.status u90.progress u90.message
        let st7 := { st6 with download_url := some ("/api/download/" ++ taskId),
                              epubBuffer := some epub }
        let u100 : Update := ⟨"completed", 100, "Conversion completed successfully!"⟩
        ([u0, u10, u20] ++ lp.1 ++ [u80, u90, u100],
          updateStatus st7 u100.status u100.progress u100.message)

/-! ## Concrete environments used by counterexamples and witnesses -/

/-- Environment of a run whose link extraction fails with a fetch error
after the progress-10 update. -/
def failingLinkEnv : ConvEnv :=
  { urlCheck := none,
    linkResult := .error "Failed to fetch https://docs.aws.amazon.com/lambda/: 500",
    pageOutcome := fun _ => .nullResult, now := 0, today := "2024-01-01" }

/-- Environment of a run over seven links, each of which yields no usable
content. -/
def sevenLinkEnv : ConvEnv :=
  { urlCheck := none,
    linkResult := .ok ["u1", "u2", "u3", "u4", "u5", "u6", "u7"],
    pageOutcome := fun _ => .nullResult, now := 0, today := "2024-01-01" }

/-- A small extracted article used by the orchestrator witnesses. -/
def sampleArticle : PageContent :=
  ⟨"Sample", "", "https://docs.aws.amazon.com/lambda/latest/dg/welcome.html",
    "<p>sample</p>", ""⟩

/-- Environment of a two-link run whose first page extraction returns null
and whose second one succeeds. -/
def twoLinkEnv : ConvEnv :=
  { urlCheck := none, linkResult := .ok ["u1", "u2"],
    pageOutcome := fun i => if i = 0 then .nullResult else .ok sampleArticle,
    now := 0, today := "2024-01-01" }

/-- Page environment whose Readability body is `len` copies of the letter
a, with an ordinary HTML content type. -/
def articleEnv (len : Nat) : PageEnv :=
  { fetchThrows := false, responseOk := true, contentType := "text/html",
    html := "<html></html>",
    article := some ⟨some "Title", some (String.mk (List.replicate len 'a')), some ""⟩,
    docTitle := none, docH1 := none }

/-! ## Theorems -/

/-- A pattern is a Boolean prefix of a list exactly when the list
decomposes as the pattern followed by a tail. -/
theorem prefixOf_eq_true_iff (p : List Char) : ∀ l : List Char,
    prefixOf p l = true ↔ ∃ t, l = p ++ t := by
  induction p with
  | nil =>
    intro l
    simp [prefixOf]
  | cons a as ih =>
    intro l
    cases l with
    | nil =>
      simp [prefixOf]
    | cons b bs =>
      simp only [prefixOf, Bool.and_eq_true, beq_iff_eq, ih bs]
      constructor
      · rintro ⟨rfl, t, rfl⟩
        exact ⟨t, rfl⟩
      · rintro ⟨t, ht⟩
        rw [List.cons_append] at ht
        injection ht with h1 h2
        exact ⟨h1.symm, t, h2⟩

/-- Boolean substring containment is equivalent to a decomposition of the
list around the pattern. -/
theorem containsSub_eq_true_iff (p : List Char) : ∀ l : List Char,
    containsSub p l = true ↔ ∃ pre t, l = pre ++ p ++ t := by
  intro l
  induction l with
  | nil =>
    simp only [containsSub, prefixOf_eq_true_iff]
    constructor
    · rintro ⟨t, ht⟩
      exact ⟨[], t, by simpa using ht⟩
    · rintro ⟨pre, t, ht⟩
      have h0 := ht.symm
      rw [List.append_assoc] at h0
      rcases List.append_eq_nil.mp h0 with ⟨hpre, hpt⟩
      rcases List.append_eq_nil.mp hpt with ⟨hp, ht2⟩
      exact ⟨[], by simp [hp]⟩
  | cons b bs ih =>
    simp only [containsSub, Bool.or_eq_true, prefixOf_eq_true_iff, ih]
    constructor
    · rintro (⟨t, ht⟩ | ⟨pre, t, ht⟩)
      · exact ⟨[], t, by simpa using ht⟩
      · exact ⟨b :: pre, t, by simp [ht]⟩
    · rintro ⟨pre, t, ht⟩
      cases pre with
      | nil =>
        exact Or.inl ⟨t, by simpa using ht⟩
      | cons c cs =>
        rw [List.cons_append, List.cons_append] at ht
        injection ht with h1 h2
        exact Or.inr ⟨cs, t, h2⟩

/-- Substring containment is transitive. -/
theorem containsSub_trans {p q l : List Char} (h1 : containsSub p q = true)
    (h2 : containsSub q l = true) : containsSub p l = true := by
  rw [containsSub_eq_true_iff] at h1 h2 ⊢
  obtain ⟨x, y, rfl⟩ := h1
  obtain ⟨u, v, rfl⟩ := h2
  exact ⟨u ++ x, y ++ v, by simp⟩

/-- If `p` occurs in `q` and `q` occurs in `s`, then `p` occurs in `s`. -/
theorem strContains_mono {s p q : String} (hpq : strContains q p = true)
    (hsq : strContains s q = true) : strContains s p = true := by
  simp only [strContains] at hpq hsq ⊢
  exact containsSub_trans hpq hsq

/-- The two longer host patterns of the source both contain
`aws.amazon.com`, so the three-way host test collapses to a single
substring test: the host gate of the predicate is pure substring
containment of `aws.amazon.com`. -/
theorem hostGate_eq_substring (h : String) :
    (strContains h "aws.amazon.com" || strContains h "docs.aws.amazon.com" ||
      strContains h "wa.aws.amazon.com") = strContains h "aws.amazon.com" := by
  rcases Bool.eq_false_or_eq_true (strContains h "aws.amazon.com") with hA | hA
  · simp [hA]
  · rcases Bool.eq_false_or_eq_true (strContains h "docs.aws.amazon.com") with hB | hB
    · exact absurd (@strContains_mono h "aws.amazon.com" "docs.aws.amazon.com"
        (by decide) hB) (by simp [hA])
    · rcases Bool.eq_false_or_eq_true (strContains h "wa.aws.amazon.com") with hC | hC
      · exact absurd (@strContains_mono h "aws.amazon.com" "wa.aws.amazon.com"
          (by decide) hC) (by simp [hA])
      · simp [hA, hB, hC]

/-- C9: the host acceptance of the link validity predicate is substring
containment of `aws.amazon.com` anywhere in the hostname (the three
patterns collapse to the one substring test), and consequently the
concrete URL `https://aws.amazon.com.example.net/docs/guide.html`, whose
host is outside the AWS documentation domain family (it is neither
`aws.amazon.com` nor a subdomain of it), is accepted by the predicate. -/
theorem c9_substring_host_acceptance :
    (∀ h : String,
      (strContains h "aws.amazon.com" || strContains h "docs.aws.amazon.com" ||
        strContains h "wa.aws.amazon.com") = strContains h "aws.amazon.com") ∧
    isValidAwsDocumentationLink "https://aws.amazon.com.example.net/docs/guide.html" = true ∧
    (parseUrl "https://aws.amazon.com.example.net/docs/guide.html").map URLRec.hostname =
      some "aws.amazon.com.example.net" ∧
    "aws.amazon.com.example.net" ≠ "aws.amazon.com" ∧
    strEndsWith "aws.amazon.com.example.net" ".aws.amazon.com" = false :=
  ⟨hostGate_eq_substring, by decide, by decide, by decide, by decide⟩

/-- C10: for every URL that parses, carries a non-empty fragment and has an
empty query, the validity predicate returns false, whatever the path: the
same-page check compares the pathname with the pathname of a re-parse of
the same string, which is always equal. -/
theorem c10_fragment_url_rejected (url : String) (u : URLRec)
    (h : parseUrl url = some u) (hh : u.hash ≠ "") (hs : u.search = "") :
    isValidAwsDocumentationLink url = false := by
  have hre : reParsedPathname url = u.pathname := by
    rw [reParsedPathname, h]
  have hc3 : (u.hash != "" && u.pathname == reParsedPathname url &&
      u.search == "") = true := by
    simp [hre, hh, hs]
  simp only [isValidAwsDocumentationLink, h]
  rcases Bool.eq_false_or_eq_true (!strContains u.hostname "aws.amazon.com" &&
      !strContains u.hostname "docs.aws.amazon.com" &&
      !strContains u.hostname "wa.aws.amazon.com") with h1 | h1 <;>
    rcases Bool.eq_false_or_eq_true (hasBadExtension u.pathname) with h2 | h2 <;>
      simp [h1, h2, hc3]

/-- A fold preserves any property its step function preserves. -/
theorem foldl_preserves {α β : Type} (f : β → α → β) (P : β → Prop)
    (hstep : ∀ st a, P st → P (f st a)) :
    ∀ (l : List α) (st : β), P st → P (l.foldl f st) := by
  intro l
  induction l with
  | nil => intro st h; exact h
  | cons a t ih => intro st h; exact ih _ (hstep st a h)

/-- Pushing a TOC link preserves the deduplication invariant: the link list
has no duplicates and every listed link is recorded in the seen set. -/
theorem pushTocLink_inv (st : List String × List String) (link : String)
    (h : st.1.Nodup ∧ ∀ x ∈ st.1, x ∈ st.2) :
    (pushTocLink st link).1.Nodup ∧
      ∀ x ∈ (pushTocLink st link).1, x ∈ (pushTocLink st link).2 := by
  rcases h with ⟨hnd, hsub⟩
  rw [pushTocLink]
  split
  · rename_i hcond
    rw [Bool.and_eq_true, Bool.not_eq_true'] at hcond
    have hmem : link ∉ st.2 := by
      intro hx
      have hc := hcond.1
      simp [List.contains, hx] at hc
    constructor
    · rw [List.nodup_append]
      exact ⟨hnd, List.nodup_singleton link,
        by intro x hx hx2; simp at hx2; exact hmem (hx2 ▸ hsub x hx)⟩
    · intro x hx
      rcases List.mem_append.mp hx with hx | hx
      · exact List.mem_append.mpr (Or.inl (hsub x hx))
      · exact List.mem_append.mpr (Or.inr hx)
  · exact ⟨hnd, hsub⟩

/-- Pushing a fallback anchor preserves the deduplication invariant. -/
theorem pushFallbackAnchor_inv (st : List String × List String)
    (a : Option String) (h : st.1.Nodup ∧ ∀ x ∈ st.1, x ∈ st.2) :
    (pushFallbackAnchor st a).1.Nodup ∧
      ∀ x ∈ (pushFallbackAnchor st a).1, x ∈ (pushFallbackAnchor st a).2 := by
  rcases h with ⟨hnd, hsub⟩
  cases a with
  | none => exact ⟨hnd, hsub⟩
  | some u =>
    rw [pushFallbackAnchor]
    split
    · rename_i hcond
      rw [Bool.and_eq_true, Bool.not_eq_true'] at hcond
      have hmem : u ∉ st.2 := by
        intro hx
        have hc := hcond.2
        simp [List.contains, hx] at hc
      constructor
      · rw [List.nodup_append]
        exact ⟨hnd, List.nodup_singleton u,
          by intro x hx hx2; simp at hx2; exact hmem (hx2 ▸ hsub x hx)⟩
      · intro x hx
        rcases List.mem_append.mp hx with hx | hx
        · exact List.mem_append.mpr (Or.inl (hsub x hx))
        · exact List.mem_append.mpr (Or.inr hx)
    · exact ⟨hnd, hsub⟩

/-- The final extractor state satisfies the deduplication invariant. -/
theorem fallbackState_inv (url : String) (page : LinkPage) :
    (fallbackState url page).1.Nodup ∧
      ∀ x ∈ (fallbackState url page).1, x ∈ (fallbackState url page).2 := by
  have hseed : (seedState url).1.Nodup ∧ ∀ x ∈ (seedState url).1, x ∈ (seedState url).2 := by
    simp [seedState]
  have htoc : (tocState url page).1.Nodup ∧
      ∀ x ∈ (tocState url page).1, x ∈ (tocState url page).2 := by
    rw [tocState]
    cases page.tocAnchors with
    | none => exact hseed
    | some anchors =>
      exact foldl_preserves pushTocLink
        (fun st => st.1.Nodup ∧ ∀ x ∈ st.1, x ∈ st.2) pushTocLink_inv _ _ hseed
  rw [fallbackState]
  split
  · exact foldl_preserves pushFallbackAnchor
      (fun st => st.1.Nodup ∧ ∀ x ∈ st.1, x ∈ st.2) pushFallbackAnchor_inv _ _ htoc
  · exact htoc

/-- C4: for every seed URL and every fetched page, the candidate link list
returned by the link extractor has at most 100 entries and contains no two
entries that are equal as exact URL strings. -/
theorem c4_links_bounded_nodup (url : String) (page : LinkPage) :
    (extractAwsDocumentationLinks url page).length ≤ 100 ∧
    (extractAwsDocumentationLinks url page).Nodup := by
  constructor
  · rw [extractAwsDocumentationLinks, List.length_take]
    exact min_le_left _ _
  · rw [extractAwsDocumentationLinks]
    exact List.Nodup.sublist (List.take_sublist _ _) (fallbackState_inv url page).1

/-- Unescaping a character other than an ampersand just keeps it. -/
theorem xmlUnescapeList_cons_ne (c : Char) (t : List Char) (h : c ≠ '&') :
    xmlUnescapeList (c :: t) = c :: xmlUnescapeList t := by
  conv_lhs => rw [xmlUnescapeList.eq_def]
  simp [h]

/-- Unescaping consumes a leading `&lt;` entity. -/
theorem xmlUnescapeList_lt (t : List Char) :
    xmlUnescapeList ('&' :: 'l' :: 't' :: ';' :: t) = '<' :: xmlUnescapeList t := by
  conv_lhs => rw [xmlUnescapeList.eq_def]
  simp [prefixOf]

/-- Unescaping consumes a leading `&gt;` entity. -/
theorem xmlUnescapeList_gt (t : List Char) :
    xmlUnescapeList ('&' :: 'g' :: 't' :: ';' :: t) = '>' :: xmlUnescapeList t := by
  conv_lhs => rw [xmlUnescapeList.eq_def]
  simp [prefixOf]

/-- Unescaping consumes a leading `&amp;` entity. -/
theorem xmlUnescapeList_amp (t : List Char) :
    xmlUnescapeList ('&' :: 'a' :: 'm' :: 'p' :: ';' :: t) = '&' :: xmlUnescapeList t := by
  conv_lhs => rw [xmlUnescapeList.eq_def]
  simp [prefixOf]

/-- Unescaping consumes a leading `&apos;` entity. -/
theorem xmlUnescapeList_apos (t : List Char) :
    xmlUnescapeList ('&' :: 'a' :: 'p' :: 'o' :: 's' :: ';' :: t) =
      '\x27' :: xmlUnescapeList t := by
  conv_lhs => rw [xmlUnescapeList.eq_def]
  simp [prefixOf]

/-- Unescaping consumes a leading `&quot;` entity. -/
theorem xmlUnescapeList_quot (t : List Char) :
    xmlUnescapeList ('&' :: 'q' :: 'u' :: 'o' :: 't' :: ';' :: t) =
      '"' :: xmlUnescapeList t := by
  conv_lhs => rw [xmlUnescapeList.eq_def]
  simp [prefixOf]

/-- The five-entity escape of `escapeXml` round-trips: decoding the escaped
text recovers the original character list. -/
theorem unescape_escape_list (l : List Char) : xmlUnescapeList (escapeXmlList l) = l := by
  induction l with
  | nil =>
    show xmlUnescapeList [] = []
    rw [xmlUnescapeList.eq_def]
  | cons c rest ih =>
    rw [escapeXmlList]
    by_cases h1 : c = '<'
    · subst h1
      show xmlUnescapeList ('&' :: 'l' :: 't' :: ';' :: escapeXmlList rest) = '<' :: rest
      rw [xmlUnescapeList_lt, ih]
    · by_cases h2 : c = '>'
      · subst h2
        show xmlUnescapeList ('&' :: 'g' :: 't' :: ';' :: escapeXmlList rest) = '>' :: rest
        rw [xmlUnescapeList_gt, ih]
      · by_cases h3 : c = '&'
        · subst h3
          show xmlUnescapeList ('&' :: 'a' :: 'm' :: 'p' :: ';' :: escapeXmlList rest) =
            '&' :: rest
          rw [xmlUnescapeList_amp, ih]
        · by_cases h4 : c = '\x27'
          · subst h4
            show xmlUnescapeList ('&' :: 'a' :: 'p' :: 'o' :: 's' :: ';' :: escapeXmlList rest) =
              '\x27' :: rest
            rw [xmlUnescapeList_apos, ih]
          · by_cases h5 : c = '"'
            · subst h5
              show xmlUnescapeList ('&' :: 'q' :: 'u' :: 'o' :: 't' :: ';' :: escapeXmlList rest) =
                '"' :: rest
              rw [xmlUnescapeList_quot, ih]
            · have he : escapeXmlChar c = [c] := by
                simp [escapeXmlChar, h1, h2, h3, h4, h5]
              rw [he]
              show xmlUnescapeList (c :: escapeXmlList rest) = c :: rest
              rw [xmlUnescapeList_cons_ne c _ h3, ih]

/-- Escaped strings decode back to the original string. -/
theorem xmlUnescape_escapeXml (s : String) : xmlUnescape (escapeXml s) = s := by
  show String.mk (xmlUnescapeList (escapeXmlList s.toList)) = s
  rw [unescape_escape_list]
  rfl

/-- Mapping a function of the index over an enumerated list is mapping it
over the index range. -/
theorem enum_map_fst_apply {α β : Type} (f : Nat → β) (l : List α) :
    l.enum.map (fun p => f p.1) = (List.range l.length).map f := by
  rw [show (fun p : Nat × α => f p.1) = f ∘ Prod.fst from rfl, ← List.map_map,
    List.enum_map_fst]

/-- Mapping a function of the element over an enumerated list is mapping it
over the list itself. -/
theorem enum_map_snd_apply {α β : Type} (f : α → β) (l : List α) :
    l.enum.map (fun p => f p.2) = l.map f := by
  rw [show (fun p : Nat × α => f p.2) = f ∘ Prod.snd from rfl, ← List.map_map,
    List.enum_map_snd]

/-- C5: for every title and article list (including the empty one), the
archive built by `createEpub` holds the five fixed entries followed by
exactly one chapter document per article in input order; the spine block of
the package document places the navigation document first, followed by one
itemref per chapter in input order; and the navigation document holds one
entry per chapter in input order whose link target is that chapter's file
and whose link text decodes to that chapter's title. -/
theorem c5_epub_structure (now : Nat) (today title : String) (chapters : List PageContent) :
    (createEpub now today title chapters).map Prod.fst =
      ["mimetype", "META-INF/container.xml", "OEBPS/styles.css", "OEBPS/content.opf",
        "OEBPS/toc.xhtml"] ++
      (List.range chapters.length).map (fun i => "OEBPS/chapter" ++ toString i ++ ".xhtml") ∧
    ((createEpub now today title chapters).map Prod.snd).drop 5 =
      chapters.map chapterXhtml ∧
    spineItemrefs chapters =
      (List.range chapters.length).map (fun i => "<itemref idref=\"chapter" ++ toString i ++ "\"/>") ∧
    (∃ pre post, contentOpf now today title chapters =
      pre ++ ("<itemref idref=\"toc\"/>\n        " ++
        String.intercalate "\n        " (spineItemrefs chapters)) ++ post) ∧
    navItems chapters =
      ((List.range chapters.length).zip (chapters.map PageContent.title)).map
        (fun p => "<li><a href=\"chapter" ++ toString p.1 ++ ".xhtml\">" ++
          escapeXml p.2 ++ "</a></li>") ∧
    chapters.map (fun ch => xmlUnescape (escapeXml ch.title)) = chapters.map PageContent.title := by
  refine ⟨?_, ?_, ?_, ?_, ?_, ?_⟩
  · rw [createEpub, List.map_append, List.map_map]
    congr 1
    exact enum_map_fst_apply (fun i => "OEBPS/chapter" ++ toString i ++ ".xhtml") chapters
  · rw [createEpub, List.map_append]
    rw [show (5 : Nat) = (([("mimetype", "application/epub+zip"),
      ("META-INF/container.xml", containerXml),
      ("OEBPS/styles.css", cssContent),
      ("OEBPS/content.opf", contentOpf now today title chapters),
      ("OEBPS/toc.xhtml", tocContent chapters)] : List (String × String)).map Prod.snd).length
      from rfl]
    rw [List.drop_left, List.map_map]
    exact enum_map_snd_apply chapterXhtml chapters
  · exact enum_map_fst_apply (fun i => "<itemref idref=\"chapter" ++ toString i ++ "\"/>") chapters
  · refine ⟨"<?xml version=\"1.0\" encoding=\"UTF-8\"?>\n<package xmlns=\"http://www.idpf.org/2007/opf\" version=\"3.0\" unique-identifier=\"uid\">\n    <metadata xmlns:dc=\"http://purl.org/dc/elements/1.1/\">\n        <dc:identifier id=\"uid\">aws-epubify-" ++
      toString now ++
      "</dc:identifier>\n        <dc:title>" ++
      escapeXml title ++
      "</dc:title>\n        <dc:creator>AWS Epubify</dc:creator>\n        <dc:language>en</dc:language>\n        <dc:date>" ++
      today ++
      "</dc:date>\n        <dc:description>AWS Documentation converted to EPUB format using AWS Epubify</dc:description>\n    </metadata>\n    <manifest>\n        <item id=\"toc\" href=\"toc.xhtml\" media-type=\"application/xhtml+xml\" properties=\"nav\"/>\n        <item id=\"css\" href=\"styles.css\" media-type=\"text/css\"/>\n        " ++
      String.intercalate "\n        " (manifestItems chapters) ++
      "\n    </manifest>\n    <spine>\n        ",
      "\n    </spine>\n</package>", ?_⟩
    rw [contentOpf]
    simp only [String.append_assoc]
  · rw [navItems, List.enum_eq_zip_range, List.zip_map_right, List.map_map]
    rfl
  · simp only [xmlUnescape_escapeXml]

set_option maxRecDepth 20000 in
/-- C1 failing input: `createEpub` interpolates the source URL of a chapter
into the attribution block without `escapeXml`, so a URL containing an
ampersand appears raw (and its escaped form does not appear) in the chapter
document, while the claim requires the five metacharacters to be escaped in
all inserted free text. -/
theorem c1_attribution_url_unescaped :
    strContains
      (chapterXhtml ⟨"Guide", "", "https://docs.aws.amazon.com/index.html?a=1&b=2", "", ""⟩)
      "<a href=\"https://docs.aws.amazon.com/index.html?a=1&b=2\">" = true ∧
    strContains
      (chapterXhtml ⟨"Guide", "", "https://docs.aws.amazon.com/index.html?a=1&b=2", "", ""⟩)
      (escapeXml "https://docs.aws.amazon.com/index.html?a=1&b=2") = false ∧
    escapeXml "https://docs.aws.amazon.com/index.html?a=1&b=2" ≠
      "https://docs.aws.amazon.com/index.html?a=1&b=2" :=
  ⟨by decide, by decide, by decide⟩

/-- Witness for C10 at the concrete URL
`https://docs.aws.amazon.com/guide/page.html#section`. -/
theorem c10_fragment_url_rejected_witness :
    parseUrl "https://docs.aws.amazon.com/guide/page.html#section" =
      some ⟨"docs.aws.amazon.com", "/guide/page.html", "", "#section"⟩ ∧
    isValidAwsDocumentationLink "https://docs.aws.amazon.com/guide/page.html#section" = false :=
  ⟨by decide,
    c10_fragment_url_rejected "https://docs.aws.amazon.com/guide/page.html#section"
      ⟨"docs.aws.amazon.com", "/guide/page.html", "", "#section"⟩
      (by decide) (by decide) (by decide)⟩

/-- C6: whenever fetch succeeds with an HTML content type and Readability
returns an article with non-null content, the extractor returns null
exactly when the trimmed body is shorter than 100 characters (and hence a
non-null article exactly when it has 100 characters or more). -/
theorem c6_content_length_threshold (url : String) (env : PageEnv)
    (a : ReadabilityArticle) (c : String)
    (h1 : env.fetchThrows = false) (h2 : env.responseOk = true)
    (h3 : (strContains env.contentType "xml" &&
      !(strContains env.contentType "html")) = false)
    (h4 : env.article = some a) (h5 : a.content = some c) :
    (processPageWithReadability url env = none ↔ (strTrim c).length < 100) := by
  simp only [processPageWithReadability, h1, h2, h3, h4, h5, Bool.not_true,
    Bool.false_eq_true, if_false]
  by_cases hc : c = ""
  · subst hc
    simp
    decide
  · rw [if_neg hc]
    by_cases hlt : strTrim c = "" ∨ (strTrim c).length < 100
    · rw [if_pos hlt]
      constructor
      · intro _
        rcases hlt with h | h
        · rw [h]
          decide
        · exact h
      · intro _
        rfl
    · rw [if_neg hlt]
      push_neg at hlt
      constructor
      · intro h
        simp at h
      · intro h
        exact absurd h (by omega)

/-- Witness for C6 at the boundary: a 99-character body is rejected and a
100-character body is accepted. -/
theorem c6_content_length_threshold_witness :
    processPageWithReadability "https://docs.aws.amazon.com/p" (articleEnv 99) = none ∧
    processPageWithReadability "https://docs.aws.amazon.com/p" (articleEnv 100) ≠ none := by
  constructor
  · exact (c6_content_length_threshold "https://docs.aws.amazon.com/p" (articleEnv 99)
      ⟨some "Title", some (String.mk (List.replicate 99 'a')), some ""⟩
      (String.mk (List.replicate 99 'a')) rfl rfl (by decide) rfl rfl).mpr (by decide)
  · intro hnone
    have h100 := (c6_content_length_threshold "https://docs.aws.amazon.com/p" (articleEnv 100)
      ⟨some "Title", some (String.mk (List.replicate 100 'a')), some ""⟩
      (String.mk (List.replicate 100 'a')) rfl rfl (by decide) rfl rfl).mp hnone
    exact absurd h100 (by decide)

/-- The trace of the page loop is one progress update per index, in
order. -/
theorem pageLoop_fst (env : ConvEnv) (n : Nat) :
    ∀ l : List Nat, (pageLoop env n l).1 = l.map (loopUpdate n) := by
  intro l
  induction l with
  | nil => rfl
  | cons i is ih => simp [pageLoop, ih]

/-- The chapters accumulated by the page loop are precisely the successful
extractions, in order. -/
theorem pageLoop_snd (env : ConvEnv) (n : Nat) :
    ∀ l : List Nat, (pageLoop env n l).2 = l.filterMap (fun i =>
      match env.pageOutcome i with
      | PageOutcome.ok a => some a
      | _ => none) := by
  intro l
  induction l with
  | nil => rfl
  | cons i is ih =>
    simp only [pageLoop, List.filterMap_cons]
    cases env.pageOutcome i <;> simp [ih]

/-- C3: whatever the environment does, the background unit always leaves
the job record in a terminal state — `completed` on the success path and
`failed` from the top-level catch — never in `processing`. -/
theorem c3_terminal_status (env : ConvEnv) (taskId url : String) (title : Option String)
    (st0 : TaskState) :
    (convertToEpubRun env taskId url title st0).2.status = "completed" ∨
    (convertToEpubRun env taskId url title st0).2.status = "failed" := by
  rcases henv : env.urlCheck with _ | e
  · rcases hlr : env.linkResult with e | links
    · right
      simp [convertToEpubRun, henv, hlr, updateStatus, failUpdate]
    · by_cases hn : links.length = 0
      · right
        simp [convertToEpubRun, henv, hlr, hn, updateStatus, failUpdate]
      · left
        simp [convertToEpubRun, henv, hlr, hn, updateStatus]
  · right
    simp [convertToEpubRun, henv, updateStatus, failUpdate]

/-- C2 counterexample: in a run whose link extraction fails after the
progress-10 update, the top-level catch writes progress 0 again, so the
progress sequence 0, 10, 0 of the whole run is not non-decreasing. -/
theorem c2_progress_decreases_on_failure :
    ((convertToEpubRun failingLinkEnv "task1" "https://docs.aws.amazon.com/lambda/" none
      initialTask).1.map Update.progress) = [0, 10, 0] ∧
    ¬ List.Chain' (fun a b : ℚ => a ≤ b)
      ((convertToEpubRun failingLinkEnv "task1" "https://docs.aws.amazon.com/lambda/" none
        initialTask).1.map Update.progress) := by
  refine ⟨rfl, ?_⟩
  intro hch
  rw [show ((convertToEpubRun failingLinkEnv "task1" "https://docs.aws.amazon.com/lambda/" none
    initialTask).1.map Update.progress) = [0, 10, 0] from rfl] at hch
  norm_num [List.chain'_cons, List.chain'_singleton] at hch

/-- Adjacent page-loop progress values are non-decreasing. -/
theorem loopUpdate_progress_le (n k : Nat) (hn : 0 < n) :
    (loopUpdate n k).progress ≤ (loopUpdate n (k + 1)).progress := by
  simp only [loopUpdate]
  have hpos : (0 : ℚ) < (n : ℚ) := by exact_mod_cast hn
  have h1 : ((k : ℚ) * 60) / (n : ℚ) ≤ (((k + 1 : Nat) : ℚ) * 60) / (n : ℚ) := by
    rw [div_le_div_right hpos]
    push_cast
    linarith
  linarith

/-- Every page-loop progress value lies between 20 and 80. -/
theorem loopUpdate_progress_bounds (n k : Nat) (hk : k < n) :
    20 ≤ (loopUpdate n k).progress ∧ (loopUpdate n k).progress ≤ 80 := by
  have hn : 0 < n := lt_of_le_of_lt (Nat.zero_le k) hk
  have hpos : (0 : ℚ) < (n : ℚ) := by exact_mod_cast hn
  simp only [loopUpdate]
  constructor
  · have h0 : 0 ≤ ((k : ℚ) * 60) / (n : ℚ) := by positivity
    linarith
  · have h1 : ((k : ℚ) * 60) / (n : ℚ) ≤ 60 := by
      rw [div_le_iff hpos]
      have hkn : (k : ℚ) ≤ (n : ℚ) := by exact_mod_cast Nat.le_of_lt hk
      nlinarith
    linarith

/-- The progress values written by the page loop over `range n` form a
non-decreasing chain. -/
theorem loop_progress_chain (n : Nat) :
    List.Chain' (fun a b : ℚ => a ≤ b)
      ((List.range n).map (fun i => (loopUpdate n i).progress)) := by
  rcases n with _ | m
  · simp
  · rw [List.chain'_map, List.chain'_range_succ]
    intro k _
    exact loopUpdate_progress_le (m + 1) k (Nat.succ_pos m)

/-- The full progress trace of a successful run is non-decreasing. -/
theorem success_progress_chain (n : Nat) (hn : 0 < n) :
    List.Chain' (fun a b : ℚ => a ≤ b)
      (([0, 10, 20] : List ℚ) ++
        ((List.range n).map (fun i => (loopUpdate n i).progress) ++ [80, 90, 100])) := by
  rcases Nat.exists_eq_succ_of_ne_zero (Nat.pos_iff_ne_zero.mp hn) with ⟨m, rfl⟩
  rw [List.chain'_append]
  refine ⟨by norm_num [List.chain'_cons, List.chain'_singleton], ?_, ?_⟩
  · rw [List.chain'_append]
    refine ⟨loop_progress_chain (m + 1),
      by norm_num [List.chain'_cons, List.chain'_singleton], ?_⟩
    intro x hx y hy
    obtain rfl : (loopUpdate (m + 1) m).progress = x := by
      rw [List.range_succ, List.map_append] at hx
      simpa using hx
    obtain rfl : (80 : ℚ) = y := by simpa using hy
    exact (loopUpdate_progress_bounds (m + 1) m (Nat.lt_succ_self m)).2
  · intro x hx y hy
    obtain rfl : (20 : ℚ) = x := by simpa using hx
    obtain rfl : (loopUpdate (m + 1) 0).progress = y := by
      rw [List.range_succ_eq_map, List.map_cons, List.cons_append, List.head?_cons] at hy
      simpa using hy
    norm_num [loopUpdate]

/-- C2 amended: the progress writes of one run are non-decreasing up to and
excluding the final write; a run that ends `completed` has a fully
non-decreasing progress sequence; only the terminal write of the failure
handler can decrease progress, and it always writes 0. -/
theorem c2_progress_monotone_amended (env : ConvEnv) (taskId url : String)
    (title : Option String) (st0 : TaskState) :
    List.Chain' (fun a b : ℚ => a ≤ b)
      (((convertToEpubRun env taskId url title st0).1.map Update.progress).dropLast) ∧
    ((convertToEpubRun env taskId url title st0).2.status = "failed" →
      ((convertToEpubRun env taskId url title st0).1.map Update.progress).getLast? =
        some 0) ∧
    ((convertToEpubRun env taskId url title st0).2.status = "completed" →
      List.Chain' (fun a b : ℚ => a ≤ b)
        ((convertToEpubRun env taskId url title st0).1.map Update.progress)) := by
  rcases henv : env.urlCheck with _ | e
  · rcases hlr : env.linkResult with e | links
    · have ht : (convertToEpubRun env taskId url title st0).1.map Update.progress =
          [0, 10, 0] := by
        simp [convertToEpubRun, henv, hlr, failUpdate]
      have hs : (convertToEpubRun env taskId url title st0).2.status = "failed" := by
        simp [convertToEpubRun, henv, hlr, failUpdate, updateStatus]
      refine ⟨?_, ?_, ?_⟩
      · rw [ht, show ([0, 10, 0] : List ℚ).dropLast = [0, 10] from rfl]
        norm_num [List.chain'_cons, List.chain'_singleton]
      · intro _
        rw [ht]
        rfl
      · intro hc
        rw [hs] at hc
        exact absurd hc (by decide)
    · by_cases hnz : links.length = 0
      · have ht : (convertToEpubRun env taskId url title st0).1.map Update.progress =
            [0, 10, 0] := by
          simp [convertToEpubRun, henv, hlr, hnz, failUpdate]
        have hs : (convertToEpubRun env taskId url title st0).2.status = "failed" := by
          simp [convertToEpubRun, henv, hlr, hnz, failUpdate, updateStatus]
        refine ⟨?_, ?_, ?_⟩
        · rw [ht, show ([0, 10, 0] : List ℚ).dropLast = [0, 10] from rfl]
          norm_num [List.chain'_cons, List.chain'_singleton]
        · intro _
          rw [ht]
          rfl
        · intro hc
          rw [hs] at hc
          exact absurd hc (by decide)
      · have hn : 0 < links.length := Nat.pos_of_ne_zero hnz
        have htrace : (convertToEpubRun env taskId url title st0).1.map Update.progress =
            ([0, 10, 20] : List ℚ) ++
            ((List.range links.length).map
              (fun i => (loopUpdate links.length i).progress) ++ [80, 90, 100]) := by
          simp [convertToEpubRun, henv, hlr, hnz, pageLoop_fst]
        have hs : (convertToEpubRun env taskId url title st0).2.status = "completed" := by
          simp [convertToEpubRun, henv, hlr, hnz, updateStatus]
        have hchain := success_progress_chain links.length hn
        rw [← htrace] at hchain
        refine ⟨?_, ?_, ?_⟩
        · exact hchain.sublist (List.dropLast_sublist _)
        · intro hfail
          rw [hs] at hfail
          exact absurd hfail (by decide)
        · intro _
          exact hchain
  · have ht : (convertToEpubRun env taskId url title st0).1.map Update.progress =
        [0, 0] := by
      simp [convertToEpubRun, henv, failUpdate]
    have hs : (convertToEpubRun env taskId url title st0).2.status = "failed" := by
      simp [convertToEpubRun, henv, failUpdate, updateStatus]
    refine ⟨?_, ?_, ?_⟩
    · rw [ht, show ([0, 0] : List ℚ).dropLast = [0] from rfl]
      norm_num [List.chain'_singleton]
    · intro _
      rw [ht]
      rfl
    · intro hc
      rw [hs] at hc
      exact absurd hc (by decide)

/-- Witness for the amended C2 on a concrete successful run. -/
theorem c2_progress_monotone_amended_witness :
    (convertToEpubRun twoLinkEnv "task1" "u" none initialTask).2.status = "completed" ∧
    List.Chain' (fun a b : ℚ => a ≤ b)
      ((convertToEpubRun twoLinkEnv "task1" "u" none initialTask).1.map Update.progress) :=
  ⟨rfl, (c2_progress_monotone_amended twoLinkEnv "task1" "u" none initialTask).2.2 rfl⟩

/-- C8 counterexample: in a seven-link run, the progress written at loop
iteration 1 is `20 + 1*60/7`, whose reduced denominator is 7, so the
progress value stored in the record is not an integer (the IEEE double the
source computes also lies strictly between 28 and 29). -/
theorem c8_progress_not_integer :
    (loopUpdate 7 1).progress ∈
      ((convertToEpubRun sevenLinkEnv "task1" "u" none initialTask).1.map
        Update.progress) ∧
    (loopUpdate 7 1).progress = 20 + ((1 : ℚ) * 60) / 7 ∧
    ¬ ∃ k : ℤ, (loopUpdate 7 1).progress = (k : ℚ) := by
  have hval : (loopUpdate 7 1).progress = 20 + ((1 : ℚ) * 60) / 7 := by
    norm_num [loopUpdate]
  refine ⟨?_, hval, ?_⟩
  · rw [show (convertToEpubRun sevenLinkEnv "task1" "u" none initialTask).1.map
        Update.progress =
      [0, 10, 20, (loopUpdate 7 0).progress, (loopUpdate 7 1).progress,
        (loopUpdate 7 2).progress, (loopUpdate 7 3).progress, (loopUpdate 7 4).progress,
        (loopUpdate 7 5).progress, (loopUpdate 7 6).progress, 80, 90, 100] from rfl]
    exact List.Mem.tail _ (List.Mem.tail _ (List.Mem.tail _ (List.Mem.tail _
      (List.Mem.head _))))
  · rintro ⟨k, hk⟩
    rw [hval] at hk
    have h1 : (k : ℚ) * 7 = 200 := by
      field_simp at hk
      linarith
    have h2 : k * 7 = 200 := by exact_mod_cast h1
    omega

/-- C8 amended: every progress value written over the whole run of the
orchestrator lies between 0 and 100 inclusive, as a rational number; the
per-page values `20 + i*60/n` need not be integers. -/
theorem c8_progress_range_amended (env : ConvEnv) (taskId url : String)
    (title : Option String) (st0 : TaskState) (p : ℚ)
    (hp : p ∈ (convertToEpubRun env taskId url title st0).1.map Update.progress) :
    0 ≤ p ∧ p ≤ 100 := by
  rcases henv : env.urlCheck with _ | e
  · rcases hlr : env.linkResult with e | links
    · rw [show (convertToEpubRun env taskId url title st0).1.map Update.progress =
        [0, 10, 0] from by simp [convertToEpubRun, henv, hlr, failUpdate]] at hp
      simp only [List.mem_cons, List.not_mem_nil, or_false] at hp
      rcases hp with rfl | rfl | rfl <;> norm_num
    · by_cases hnz : links.length = 0
      · rw [show (convertToEpubRun env taskId url title st0).1.map Update.progress =
          [0, 10, 0] from by simp [convertToEpubRun, henv, hlr, hnz, failUpdate]] at hp
        simp only [List.mem_cons, List.not_mem_nil, or_false] at hp
        rcases hp with rfl | rfl | rfl <;> norm_num
      · rw [show (convertToEpubRun env taskId url title st0).1.map Update.progress =
          ([0, 10, 20] : List ℚ) ++
          ((List.range links.length).map
            (fun i => (loopUpdate links.length i).progress) ++ [80, 90, 100]) from by
          simp [convertToEpubRun, henv, hlr, hnz, pageLoop_fst]] at hp
        rcases List.mem_append.mp hp with h1 | h2
        · simp only [List.mem_cons, List.not_mem_nil, or_false] at h1
          rcases h1 with rfl | rfl | rfl <;> norm_num
        · rcases List.mem_append.mp h2 with h3 | h4
          · simp only [List.mem_map, List.mem_range] at h3
            obtain ⟨i, hi, rfl⟩ := h3
            have hb := loopUpdate_progress_bounds links.length i hi
            exact ⟨by linarith [hb.1], by linarith [hb.2]⟩
          · simp only [List.mem_cons, List.not_mem_nil, or_false] at h4
            rcases h4 with rfl | rfl | rfl <;> norm_num
  · rw [show (convertToEpubRun env taskId url title st0).1.map Update.progress =
      [0, 0] from by simp [convertToEpubRun, henv, failUpdate]] at hp
    simp only [List.mem_cons, List.not_mem_nil, or_false] at hp
    rcases hp with rfl | rfl <;> norm_num

/-- Witness for the amended C8 at the progress value 10 of a concrete
run. -/
theorem c8_progress_range_amended_witness :
    (10 : ℚ) ∈ ((convertToEpubRun failingLinkEnv "task1" "u" none initialTask).1.map
      Update.progress) ∧ 0 ≤ (10 : ℚ) ∧ (10 : ℚ) ≤ 100 :=
  ⟨by decide,
    c8_progress_range_amended failingLinkEnv "task1" "u" none initialTask 10 (by decide)⟩

/-- Lists whose images under `f` are all `some` keep their length under
`filterMap f`. -/
theorem length_filterMap_of_all_some (f : Nat → Option PageContent) :
    ∀ l : List Nat, (∀ i ∈ l, (f i).isSome) → (l.filterMap f).length = l.length := by
  intro l
  induction l with
  | nil => intro _; rfl
  | cons a t ih =>
    intro h
    rw [List.filterMap_cons]
    rcases ho : f a with _ | b
    · exact absurd (h a (List.mem_cons_self a t)) (by simp [ho])
    · simp only [List.length_cons, ih (fun i hi => h i (List.mem_cons_of_mem a hi))]

/-- If exactly one index of a duplicate-free list maps to `none` and every
other one maps to `some`, `filterMap` drops exactly one element. -/
theorem length_filterMap_single_fail (f : Nat → Option PageContent) :
    ∀ (l : List Nat) (k : Nat), l.Nodup → k ∈ l → f k = none →
      (∀ i ∈ l, i ≠ k → (f i).isSome) →
      (l.filterMap f).length = l.length - 1 := by
  intro l
  induction l with
  | nil =>
    intro k _ hk
    cases hk
  | cons a t ih =>
    intro k hnd hm hknone hok
    rw [List.filterMap_cons]
    by_cases hak : a = k
    · subst hak
      rw [hknone]
      have hnot : a ∉ t := (List.nodup_cons.mp hnd).1
      have hall : ∀ i ∈ t, (f i).isSome := by
        intro i hi
        exact hok i (List.mem_cons_of_mem a hi) (fun he => hnot (he ▸ hi))
      rw [length_filterMap_of_all_some f t hall]
      simp
    · have hkt : k ∈ t := by
        rcases List.mem_cons.mp hm with h | h
        · exact absurd h.symm hak
        · exact h
      have hsome : (f a).isSome := hok a (List.mem_cons_self a t) hak
      rcases ho : f a with _ | b
      · rw [ho] at hsome
        cases hsome
      · have hrec := ih k (List.nodup_cons.mp hnd).2 hkt hknone
          (fun i hi hik => hok i (List.mem_cons_of_mem a hi) hik)
        have hpos : 0 < t.length := List.length_pos.mpr (List.ne_nil_of_mem hkt)
        simp only [List.length_cons, hrec]
        omega

/-- C7: when link extraction yields `N ≥ 2` links and page extraction
fails (throws or returns null) on exactly one of them while succeeding on
the other `N − 1`, the run still ends `completed` and the EPUB attached to
the job is built from exactly the `N − 1` successfully extracted chapters,
in order. -/
theorem c7_single_page_failure_tolerated (env : ConvEnv) (taskId url : String)
    (title : Option String) (st0 : TaskState) (links : List String) (k : Nat)
    (arts : Nat → PageContent)
    (hurl : env.urlCheck = none) (hlinks : env.linkResult = .ok links)
    (hN : 2 ≤ links.length) (hk : k < links.length)
    (hfail : ∀ a : PageContent, env.pageOutcome k ≠ PageOutcome.ok a)
    (hok : ∀ i, i < links.length → i ≠ k → env.pageOutcome i = PageOutcome.ok (arts i)) :
    (convertToEpubRun env taskId url title st0).2.status = "completed" ∧
    (convertToEpubRun env taskId url title st0).2.epubBuffer =
      some (createEpub env.now env.today (jsOrElse title "AWS Documentation")
        (pageLoop env links.length (List.range links.length)).2) ∧
    (pageLoop env links.length (List.range links.length)).2 =
      (List.range links.length).filterMap (fun i =>
        match env.pageOutcome i with
        | PageOutcome.ok a => some a
        | _ => none) ∧
    (pageLoop env links.length (List.range links.length)).2.length =
      links.length - 1 := by
  have hnz : ¬ links.length = 0 := by omega
  refine ⟨?_, ?_, pageLoop_snd env links.length (List.range links.length), ?_⟩
  · simp [convertToEpubRun, hurl, hlinks, hnz, updateStatus]
  · simp [convertToEpubRun, hurl, hlinks, hnz, updateStatus]
  · rw [pageLoop_snd]
    have hlen := length_filterMap_single_fail
      (fun i => match env.pageOutcome i with
        | PageOutcome.ok a => some a
        | _ => none)
      (List.range links.length) k (List.nodup_range links.length)
      (List.mem_range.mpr hk) ?_ ?_
    · rw [hlen, List.length_range]
    · rcases ho : env.pageOutcome k with m | _ | a
      · simp [ho]
      · simp [ho]
      · exact absurd ho (hfail a)
    · intro i hi hik
      simp [hok i (List.mem_range.mp hi) hik]

/-- Witness for C7 on a concrete two-link run whose first extraction
returns null. -/
theorem c7_single_page_failure_tolerated_witness :
    (convertToEpubRun twoLinkEnv "task1" "u" none initialTask).2.status = "completed" ∧
    (pageLoop twoLinkEnv 2 (List.range 2)).2.length = 1 := by
  have h := c7_single_page_failure_tolerated twoLinkEnv "task1" "u" none initialTask
    ["u1", "u2"] 0 (fun _ => sampleArticle) rfl rfl (by decide) (by decide)
    (by
      intro a ha
      simp [twoLinkEnv] at ha)
    (by
      intro i hi hik
      have hi2 : i < 2 := by simpa using hi
      have h1 : i = 1 := by omega
      subst h1
      rfl)
  exact ⟨h.1, h.2.2.2⟩

end AwsEpubify
